import Mathlib

/-!
Verification development for the open_code_config generators.

The repository consists of near-identical Python generator scripts that read
a TOML configuration, resolve and merge Markdown template fragments, strip a
leading frontmatter block, and write an output document.  This file gives a
shallow embedding of the three generators cited by the claims
(blockchain_agent.py, clean.py, commit.py): the filesystem is a finite map
from path strings to file contents, and every effectful Python function is
embedded as a function into a state-passing monad that records the file
accesses, warnings, directory creations and writes it performs, and models a
raised exception as an error value.
-/

/-- The single-quote character, used verbatim inside several of the source
error messages. -/
def sqc : String := (Char.ofNat 39).toString

/-- Model of the Python expression sep.join(parts). -/
def pyJoin (sep : String) : List String → String
  | [] => ""
  | [x] => x
  | x :: y :: xs => x ++ sep ++ pyJoin sep (y :: xs)

/-- Split a character list at every occurrence of the separator character:
the accumulator holds the current piece reversed. -/
def splitCharAux (sep : Char) : List Char → List Char → List String
  | [], acc => [String.mk acc.reverse]
  | c :: cs, acc =>
    if c == sep then
      String.mk acc.reverse :: splitCharAux sep cs []
    else
      splitCharAux sep cs (c :: acc)

/-- Model of the Python expression s.split(sep) for a one-character
separator (always at least one piece). -/
def pySplitChar (sep : Char) (s : String) : List String :=
  splitCharAux sep s.data []

/-- Model of the Python expression s.strip(): leading and trailing
whitespace removed (modelled with Char.isWhitespace). -/
def pyStrip (s : String) : String :=
  String.mk (((s.data.dropWhile Char.isWhitespace).reverse.dropWhile Char.isWhitespace).reverse)

/-- Model of the Python expression s.lower(). -/
def pyLower (s : String) : String := String.mk (s.data.map Char.toLower)

/-- Model of pathlib Path.name for the slash-separated path strings of the
model: the final path component. -/
def basename (p : String) : String := (pySplitChar (Char.ofNat 47) p).getLastD p

/-- Model of pathlib absolute-path detection for POSIX-style path strings:
the path starts with a slash. -/
def isAbsolutePath (p : String) : Bool :=
  match p.data with
  | [] => false
  | c :: _ => c == Char.ofNat 47

/-- Model of the source pattern
p = Path(file_path); if not p.is_absolute(): p = self.project_root / p . -/
def resolvePath (root p : String) : String :=
  if isAbsolutePath p then p else root ++ "/" ++ p

/-- Model of the Python expression s.title() for the single lowercase words
that appear as language tags (elixir, typescript, kotlin): first character
upper-cased, remainder lower-cased. -/
def pyTitle (s : String) : String :=
  match s.data with
  | [] => ""
  | c :: cs => String.mk (c.toUpper :: cs.map Char.toLower)

/-- Whether pat occurs as a contiguous substring of s, by scanning every
suffix of the character list. -/
def containsSub : List Char → List Char → Bool
  | [], pat => pat.isEmpty
  | c :: rest, pat => pat.isPrefixOf (c :: rest) || containsSub rest pat

def strContains (s pat : String) : Bool := containsSub s.data pat.data

/-- The modelled filesystem: an association list from path strings to file
contents.  A path absent from the list does not exist. -/
abbrev FS : Type := List (String × String)

/-- Contents of the file at path p, if it exists. -/
def FS.readFile (fs : FS) (p : String) : Option String :=
  (List.find? (fun kv => kv.1 == p) fs).map (fun kv => kv.2)

/-- The observable effects of one generator run: file paths touched by
exists()/stat()/open() calls, warning lines printed, directories created and
files written. -/
structure Trace where
  reads : List String := []
  warns : List String := []
  mkdirs : List String := []
  writes : List (String × String) := []
deriving Repr, DecidableEq

/-- Effect monad of the embedding: a computation reads the (fixed)
filesystem, threads a Trace of the effects performed so far, and either
returns a value or stops with the message of the raised exception.  The
Trace accumulated up to the raise survives, so a theorem can state that an
error happened before any file I/O. -/
def GenM (α : Type) : Type := FS → Trace → Except String α × Trace

def genPure {α : Type} (a : α) : GenM α := fun _ t => (Except.ok a, t)

def genBind {α β : Type} (m : GenM α) (f : α → GenM β) : GenM β :=
  fun fs t =>
    match m fs t with
    | (Except.ok a, t') => f a fs t'
    | (Except.error e, t') => (Except.error e, t')

instance instMonadGenM : Monad GenM where
  pure := genPure
  bind := genBind

/-- Model of raise: stops the computation with the exception message. -/
def throwErr {α : Type} (e : String) : GenM α := fun _ t => (Except.error e, t)

/-- Model of Path.exists(): consults the filesystem (recorded as a read). -/
def fsExists (p : String) : GenM Bool :=
  fun fs t => (Except.ok (FS.readFile fs p).isSome, { t with reads := t.reads ++ [p] })

/-- Model of path.stat().st_size == 0: true exactly when the file content is
empty (recorded as a read); error if the file does not exist. -/
def fsSizeIsZero (p : String) : GenM Bool :=
  fun fs t =>
    match FS.readFile fs p with
    | some c => (Except.ok (c == ""), { t with reads := t.reads ++ [p] })
    | none => (Except.error ("FileNotFoundError: " ++ p), { t with reads := t.reads ++ [p] })

/-- Model of open(p).read() wrapped in the source try/except blocks: returns
the content; if the file is absent the surrounding except-clause turns the
failure into msg. -/
def fsReadFileMsg (p msg : String) : GenM String :=
  fun fs t =>
    match FS.readFile fs p with
    | some c => (Except.ok c, { t with reads := t.reads ++ [p] })
    | none => (Except.error msg, { t with reads := t.reads ++ [p] })

/-- Model of a warning printed to stdout. -/
def warn (msg : String) : GenM Unit :=
  fun _ t => (Except.ok (), { t with warns := t.warns ++ [msg] })

/-- Model of output_file.parent.mkdir(parents=True, exist_ok=True). -/
def fsMkdirParents (p : String) : GenM Unit :=
  fun _ t => (Except.ok (), { t with mkdirs := t.mkdirs ++ [p] })

/-- Model of open(p, w).write(content). -/
def fsWrite (p content : String) : GenM Unit :=
  fun _ t => (Except.ok (), { t with writes := t.writes ++ [(p, content)] })

/-- Run a generator computation on a filesystem, starting from the empty
trace. -/
def runGen {α : Type} (m : GenM α) (fs : FS) : Except String α × Trace :=
  m fs {}

/-- Model of the TOML values a generator config table can hold: strings,
booleans, integers, arrays and nested tables.  (Floating-point values are
outside the model.) -/
inductive TomlVal where
  | s (v : String)
  | b (v : Bool)
  | i (v : Int)
  | arr (vs : List TomlVal)
  | table (kvs : List (String × TomlVal))

/-- A parsed TOML table: an ordered association list, mirroring the
insertion-ordered Python dict. -/
abbrev TomlDict : Type := List (String × TomlVal)

/-- Python truthiness of a config value: empty string, False, 0, empty list
and empty dict are falsy. -/
def TomlVal.truthy : TomlVal → Bool
  | .s v => v ≠ ""
  | .b v => v
  | .i v => v ≠ 0
  | .arr vs => !vs.isEmpty
  | .table kvs => !kvs.isEmpty

/-- Model of d[k] lookup: value stored at the first occurrence of key k. -/
def tomlGet (d : TomlDict) (k : String) : Option TomlVal :=
  (List.find? (fun kv => kv.1 == k) d).map (fun kv => kv.2)

/-- Model of d.get(k, dflt). -/
def tomlGetD (d : TomlDict) (k : String) (dflt : TomlVal) : TomlVal :=
  (tomlGet d k).getD dflt

/-- Model of d.get(k, {}) at the points where the source navigates nested
config tables (TOML guarantees these values are tables when present). -/
def getTableD (d : TomlDict) (k : String) : TomlDict :=
  match tomlGet d k with
  | some (.table t) => t
  | _ => []

/-- Model of d[k] = v on a key already present: replaces the stored value in
place, keeping the insertion order of the Python dict. -/
def tomlSet (d : TomlDict) (k : String) (v : TomlVal) : TomlDict :=
  d.map (fun kv => if kv.1 == k then (kv.1, v) else kv)

/-- The control-key set shared by the generators
(CONFIG_KEYS in blockchain_agent.py). -/
def CONFIG_KEYS : List String :=
  ["enabled", "template", "template_file", "additional_files",
   "additional_files_strategy", "include_base_template", "lang"]

/-- The control fields of one generator config section, as read by the
.get calls at the top of validate_and_read_template.  The embedding of the
template-resolution functions takes this typed view; an absent key is the
corresponding .get default. -/
structure Config where
  template : String := "default"
  template_file : String := ""
  additional_files : List String := []
  additional_files_strategy : String := "merge"
  include_base_template : Bool := true
  lang : String := ""
deriving Repr, DecidableEq

/-- Model of the Python str(v) of a TOML string value: the string itself. -/
def tomlStrD (d : TomlDict) (k : String) (dflt : String) : String :=
  match tomlGet d k with
  | some (.s v) => v
  | _ => dflt

def tomlBoolD (d : TomlDict) (k : String) (dflt : Bool) : Bool :=
  match tomlGet d k with
  | some (.b v) => v
  | _ => dflt

def tomlStrListD (d : TomlDict) (k : String) (dflt : List String) : List String :=
  match tomlGet d k with
  | some (.arr vs) => vs.filterMap (fun v => match v with | .s x => some x | _ => none)
  | _ => dflt

/-- The typed view of a config section, mirroring the defaults of the .get
calls in blockchain_agent.py (include_base_template defaults to True
there).  Applies to sections whose control fields carry their documented
TOML types. -/
def Config.ofDict (d : TomlDict) : Config :=
  { template := tomlStrD d "template" "default"
    template_file := tomlStrD d "template_file" ""
    additional_files := tomlStrListD d "additional_files" []
    additional_files_strategy := tomlStrD d "additional_files_strategy" "merge"
    include_base_template := tomlBoolD d "include_base_template" true
    lang := tomlStrD d "lang" "" }

/-- The custom-template branch of validate_and_read_template, identical
(text and order of checks) in blockchain_agent.py and clean.py: empty
template_file check, path resolution, existence check, zero-size check,
read. -/
def readCustomTemplate (root template_file : String) : GenM String := do
  if template_file == "" then
    throwErr "Custom template specified but template_file is empty"
  else do
  let p := resolvePath root template_file
  let ex ← fsExists p
  if !ex then
    throwErr ("Custom template file not found: " ++ p)
  else do
  let z ← fsSizeIsZero p
  if z then
    throwErr ("Custom template file is empty: " ++ p)
  else
    fsReadFileMsg p ("Failed to read custom template file " ++ p)

/-- One step of the _process_additional_files loop, identical in all three
generators: resolve the path, raise if the file does not exist, read it, and
keep a heading-plus-content fragment when the content is not pure
whitespace.  Returns the list of kept fragments. -/
def processAdditionalFilesAux (root : String) : List String → GenM (List String)
  | [] => genPure []
  | f :: rest => do
    let p := resolvePath root f
    let ex ← fsExists p
    if !ex then
      throwErr ("Additional file not found: " ++ p)
    else do
    let content ← fsReadFileMsg p ("Failed to read additional file " ++ p)
    let tail ← processAdditionalFilesAux root rest
    if pyStrip content ≠ "" then
      genPure (("## " ++ basename p ++ "\n\n" ++ content) :: tail)
    else
      genPure tail

/-- Model of _process_additional_files (identical in all three generators):
empty list gives the empty string, otherwise the kept fragments joined with
a blank line. -/
def process_additional_files (root : String) (additional_files : List String) : GenM String := do
  if additional_files.isEmpty then
    genPure ""
  else do
    let frags ← processAdditionalFilesAux root additional_files
    genPure (pyJoin "\n\n" frags)

/-- The final strategy combination at the end of validate_and_read_template,
identical in all three generators. -/
def combineByStrategy (strategy : String) (additional_files : List String)
    (main_content additional_content : String) : String :=
  if strategy == "replace" && !additional_files.isEmpty then
    additional_content
  else if strategy == "merge" then
    if additional_content ≠ "" then
      main_content ++ "\n\n# Additional Files\n\n" ++ additional_content
    else
      main_content
  else
    main_content

namespace BlockchainAgent

def BASE_TEMPLATE_PATH : String := "control/agents/subagents/blockchain-agent/base.md"

def LANG_TEMPLATE_PATH (lang : String) : String :=
  "control/agents/subagents/blockchain-agent/" ++ lang ++ ".md"

def OUTPUT_PATH : String := "generated/.opencode/agent/subagent/blockchain-agent.md"

def SUPPORTED_LANGUAGES : List String := ["elixir", "typescript"]

/-- The template == default branch of
BlockchainAgentGenerator.validate_and_read_template (lines 82-115): the base
fragment is mandatory when include_base_template is set (missing file
raises); a set lang requires the language file to exist (missing file
raises) but an empty language file only warns and is skipped; a non-empty
language file joins as a fragment carrying its own heading; the collected
parts are joined with a single newline. -/
def default_template_content (root : String) (cfg : Config) : GenM String := do
  let baseParts ←
    if cfg.include_base_template then do
      let p := root ++ "/" ++ BASE_TEMPLATE_PATH
      let ex ← fsExists p
      if ex then do
        let c ← fsReadFileMsg p ("Failed to read base template " ++ p)
        genPure [c]
      else
        throwErr ("Base template not found: " ++ p)
    else
      genPure []
  let parts ←
    if cfg.lang ≠ "" then do
      let p := root ++ "/" ++ LANG_TEMPLATE_PATH cfg.lang
      let ex ← fsExists p
      if ex then do
        let z ← fsSizeIsZero p
        if z then do
          warn ("Warning: Language template is empty: " ++ p ++ ". Skipping language-specific content.")
          genPure baseParts
        else do
          let c ← fsReadFileMsg p ("Failed to read language template " ++ p)
          genPure (baseParts ++ ["\n\n# " ++ pyTitle cfg.lang ++ " Blockchain Development Specifics\n\n" ++ c])
      else
        throwErr ("Language template not found: " ++ p)
    else
      genPure baseParts
  if parts.isEmpty then
    throwErr "No template content available. Either include_base_template must be true or a language must be specified."
  else
    genPure (pyJoin "\n" parts)

/-- The main_template_content computation of
BlockchainAgentGenerator.validate_and_read_template (lines 80-137): skipped
entirely (left as the empty string) when the strategy is replace and
additional_files is non-empty. -/
def main_template_content (root : String) (cfg : Config) : GenM String := do
  if cfg.additional_files_strategy ≠ "replace" || cfg.additional_files.isEmpty then
    if cfg.template == "default" then
      default_template_content root cfg
    else if cfg.template == "custom" then
      readCustomTemplate root cfg.template_file
    else
      throwErr ("Unknown template type: " ++ cfg.template)
  else
    genPure ""

/-- Model of BlockchainAgentGenerator.validate_and_read_template
(lines 60-149): language check, strategy check, custom-with-empty-file
check, ignored-template_file warning, main content, additional files,
strategy combination. -/
def validate_and_read_template (root : String) (cfg : Config) : GenM String := do
  if cfg.lang ≠ "" && !(SUPPORTED_LANGUAGES.contains cfg.lang) then
    throwErr ("Unsupported language: " ++ cfg.lang ++ ". Supported languages: " ++ pyJoin ", " SUPPORTED_LANGUAGES)
  else do
  if !(["merge", "replace"].contains cfg.additional_files_strategy) then
    throwErr ("Invalid additional_files_strategy: " ++ cfg.additional_files_strategy ++ ". Must be " ++ sqc ++ "merge" ++ sqc ++ " or " ++ sqc ++ "replace" ++ sqc)
  else do
  if cfg.template == "custom" && cfg.template_file == "" then
    throwErr "Custom template specified but template_file is empty"
  else do
  if cfg.template == "default" && cfg.template_file ≠ "" then
    warn ("Warning: template_file " ++ sqc ++ cfg.template_file ++ sqc ++ " specified but template is " ++ sqc ++ "default" ++ sqc ++ ". template_file will be ignored.")
  else
    genPure ()
  let main ← main_template_content root cfg
  let additional ← process_additional_files root cfg.additional_files
  genPure (combineByStrategy cfg.additional_files_strategy cfg.additional_files main additional)

end BlockchainAgent

namespace Clean

def BASE_TEMPLATE_PATH : String := "control/commands/generic/clean/base.md"

def LANG_TEMPLATE_PATH (lang : String) : String :=
  "control/commands/generic/clean/" ++ lang ++ ".md"

/-- The template == default branch of
CleanConfigGenerator.validate_and_read_template (lines 70-108): a missing
base or language file only warns and is skipped; an existing language file
is appended even when empty; the parts are joined with a blank line; when no
part was collected the base template is re-read as a fallback, and only a
missing fallback base is fatal. -/
def default_template_content (root : String) (cfg : Config) : GenM String := do
  let baseParts ←
    if cfg.include_base_template then do
      let p := root ++ "/" ++ BASE_TEMPLATE_PATH
      let ex ← fsExists p
      if ex then do
        let c ← fsReadFileMsg p ("Failed to read base template file " ++ p)
        genPure [c]
      else do
        warn ("Warning: Base template not found at " ++ p)
        genPure []
    else
      genPure []
  let parts ←
    if cfg.lang ≠ "" then do
      let p := root ++ "/" ++ LANG_TEMPLATE_PATH cfg.lang
      let ex ← fsExists p
      if ex then do
        let c ← fsReadFileMsg p ("Failed to read language template file " ++ p)
        genPure (baseParts ++ [c])
      else do
        warn ("Warning: Language template not found at " ++ p)
        genPure baseParts
    else
      genPure baseParts
  if !parts.isEmpty then
    genPure (pyJoin "\n\n" parts)
  else do
    let p := root ++ "/" ++ BASE_TEMPLATE_PATH
    let ex ← fsExists p
    if ex then
      fsReadFileMsg p ("Failed to read fallback base template file " ++ p)
    else
      throwErr ("No template files found. Base template missing: " ++ p)

/-- The main_template_content computation of
CleanConfigGenerator.validate_and_read_template (lines 68-130). -/
def main_template_content (root : String) (cfg : Config) : GenM String := do
  if cfg.additional_files_strategy ≠ "replace" || cfg.additional_files.isEmpty then
    if cfg.template == "default" then
      default_template_content root cfg
    else if cfg.template == "custom" then
      readCustomTemplate root cfg.template_file
    else
      throwErr ("Unknown template type: " ++ cfg.template)
  else
    genPure ""

/-- Model of CleanConfigGenerator.validate_and_read_template
(lines 57-142): strategy check, main content, additional files, strategy
combination.  Unlike the blockchain generator, no language validation
happens here (it lives in validate_clean_config). -/
def validate_and_read_template (root : String) (cfg : Config) : GenM String := do
  if !(["merge", "replace"].contains cfg.additional_files_strategy) then
    throwErr ("Invalid additional_files_strategy: " ++ cfg.additional_files_strategy ++ ". Must be " ++ sqc ++ "merge" ++ sqc ++ " or " ++ sqc ++ "replace" ++ sqc)
  else do
  let main ← main_template_content root cfg
  let additional ← process_additional_files root cfg.additional_files
  genPure (combineByStrategy cfg.additional_files_strategy cfg.additional_files main additional)

end Clean

namespace Commit

/-- The main_template_content computation of
CommitConfigGenerator.validate_and_read_template (lines 68-95): the default
branch picks the fixed git-commit.md path without an existence check; the
custom branch validates template_file, existence and size; the selected path
is then read, any failure surfacing as a wrapped read error. -/
def main_template_content (root : String) (cfg : Config) : GenM String := do
  if cfg.additional_files_strategy ≠ "replace" || cfg.additional_files.isEmpty then do
    let templatePath ←
      if cfg.template == "default" then
        genPure (root ++ "/" ++ "control/commands/generic/git-commit.md")
      else if cfg.template == "custom" then do
        if cfg.template_file == "" then
          throwErr "Custom template specified but template_file is empty"
        else do
        let p := resolvePath root cfg.template_file
        let ex ← fsExists p
        if !ex then
          throwErr ("Custom template file not found: " ++ p)
        else do
        let z ← fsSizeIsZero p
        if z then
          throwErr ("Custom template file is empty: " ++ p)
        else
          genPure p
      else
        throwErr ("Unknown template type: " ++ cfg.template)
    fsReadFileMsg templatePath ("Failed to read template file " ++ templatePath)
  else
    genPure ""

/-- Model of CommitConfigGenerator.validate_and_read_template
(lines 59-107): the strategy check is the first statement after the .get
reads; no language field exists for this generator. -/
def validate_and_read_template (root : String) (cfg : Config) : GenM String := do
  if !(["merge", "replace"].contains cfg.additional_files_strategy) then
    throwErr ("Invalid additional_files_strategy: " ++ cfg.additional_files_strategy ++ ". Must be " ++ sqc ++ "merge" ++ sqc ++ " or " ++ sqc ++ "replace" ++ sqc)
  else do
  let main ← main_template_content root cfg
  let additional ← process_additional_files root cfg.additional_files
  genPure (combineByStrategy cfg.additional_files_strategy cfg.additional_files main additional)

end Commit

/-- The scan of the _strip_frontmatter loop over lines[1:]: the suffix of
the line list after the first line whose strip() equals the delimiter, if
any such line exists. -/
def findCloseDelim : List String → Option (List String)
  | [] => none
  | l :: ls => if pyStrip l == "---" then some ls else findCloseDelim ls

/-- Model of _strip_frontmatter, identical in blockchain_agent.py
(lines 253-264) and clean.py (lines 205-216): split on newline; if the first
line strips to the delimiter and a later line also strips to the delimiter,
return the lines after that closing line, minus leading
whitespace-only lines, re-joined with newline; otherwise return the input
unchanged. -/
def strip_frontmatter (content : String) : String :=
  match pySplitChar (Char.ofNat 10) content with
  | [] => content
  | first :: rest =>
    if pyStrip first == "---" then
      match findCloseDelim rest with
      | some remaining => pyJoin "\n" (remaining.dropWhile (fun l => pyStrip l == ""))
      | none => content
    else
      content

namespace BlockchainAgent

/-- Model of BlockchainAgentGenerator._extract_agent_config
(lines 178-184): the insertion-ordered restriction of the section to keys
outside CONFIG_KEYS. -/
def extract_agent_config (d : TomlDict) : TomlDict :=
  d.filter (fun kv => !(CONFIG_KEYS.contains kv.1))

/-- Model of BlockchainAgentGenerator._format_permissions (lines 186-204):
empty input gives the empty table; otherwise tools, bash_rules and
edit_rules are fetched with empty-table defaults and re-keyed as tools,
bash and edit, each kept only when truthy, in that insertion order. -/
def format_permissions (permissions : TomlDict) : TomlDict :=
  if permissions.isEmpty then
    []
  else
    (if (tomlGetD permissions "tools" (.table [])).truthy then
      [("tools", tomlGetD permissions "tools" (.table []))]
    else []) ++
    (if (tomlGetD permissions "bash_rules" (.table [])).truthy then
      [("bash", tomlGetD permissions "bash_rules" (.table []))]
    else []) ++
    (if (tomlGetD permissions "edit_rules" (.table [])).truthy then
      [("edit", tomlGetD permissions "edit_rules" (.table []))]
    else [])

/-- The reshaping step of write_agent_config (lines 214-217): when the
extracted pass-through config carries a permissions key, its value is
replaced in place by the formatted permissions.  The source calls
permissions.get(...), so a non-table permissions value is outside the
model (in Python it raises AttributeError). -/
def extract_and_reshape (d : TomlDict) : TomlDict :=
  let agent_config := extract_agent_config d
  match tomlGet agent_config "permissions" with
  | some (.table t) => tomlSet agent_config "permissions" (.table (format_permissions t))
  | _ => agent_config

end BlockchainAgent

/-- Model of the Python expression repr(v) for the modelled TOML values:
quoted strings, True/False, integer literals, bracketed lists and braced
dicts. -/
def pyRepr : TomlVal → String
  | .s v => sqc ++ v ++ sqc
  | .b v => if v then "True" else "False"
  | .i v => toString v
  | .arr vs => "[" ++ pyJoin ", " (vs.attach.map (fun x => pyRepr x.1)) ++ "]"
  | .table kvs => "\x7b" ++ pyJoin ", " (kvs.attach.map (fun x => sqc ++ x.1.1 ++ sqc ++ ": " ++ pyRepr x.1.2)) ++ "\x7d"
termination_by v => sizeOf v
decreasing_by
  · have h := List.sizeOf_lt_of_mem x.2
    simp only [TomlVal.arr.sizeOf_spec]
    omega
  · have h := List.sizeOf_lt_of_mem x.2
    rcases x with ⟨⟨k, v⟩, hm⟩
    simp only [TomlVal.table.sizeOf_spec]
    simp [Prod.mk.sizeOf_spec] at h
    omega

/-- Model of the Python expression str(v): the raw characters for a string,
repr otherwise. -/
def pyStr : TomlVal → String
  | .s v => v
  | v => pyRepr v

/-- Model of the Python expression str(v).lower(). -/
def pyStrLower (v : TomlVal) : String := (pyStr v).toLower

namespace BlockchainAgent

/-- One key/value line group of the frontmatter loop in write_agent_config
(lines 221-241).  The permissions value (already formatted) expands to an
indented block; note the source emits str(value).lower() of the whole
permissions dict for a non-dict permission entry, and that Python treats
booleans as int instances, so the isinstance(value, (int, float)) branch
captures booleans before the isinstance(value, bool) branch, emitting
True/False capitalized. -/
def frontmatterEntry (key : String) (value : TomlVal) : List String :=
  if key == "permissions" then
    [key ++ ":"] ++
    (match value with
     | .table perms =>
       perms.flatMap (fun pkv =>
         match pkv.2 with
         | .table sub =>
           ["  " ++ pkv.1 ++ ":"] ++
           sub.map (fun skv =>
             match skv.2 with
             | .s sv => "    \"" ++ skv.1 ++ "\": \"" ++ sv ++ "\""
             | sv => "    " ++ skv.1 ++ ": " ++ pyStrLower sv)
         | _ => ["  " ++ pkv.1 ++ ": " ++ pyStrLower value])
     | _ => [])
  else
    match value with
    | .s v => [key ++ ": \"" ++ v ++ "\""]
    | .i v => [key ++ ": " ++ toString v]
    | .b v => [key ++ ": " ++ (if v then "True" else "False")]
    | v => [key ++ ": " ++ pyStr v]

/-- Model of BlockchainAgentGenerator.write_agent_config (lines 206-251):
create the parent directory, strip frontmatter from the template content,
extract and reshape the pass-through config, emit the frontmatter lines and
write the joined lines followed directly by the stripped body. -/
def write_agent_config (root : String) (sect : TomlDict) (template_content : String) : GenM Unit := do
  let output_file := root ++ "/" ++ OUTPUT_PATH
  fsMkdirParents output_file
  let clean_content := strip_frontmatter template_content
  let agent_config := extract_and_reshape sect
  let frontmatter_lines :=
    ["---"] ++ (agent_config.flatMap (fun kv => frontmatterEntry kv.1 kv.2)) ++ ["---", ""]
  fsWrite output_file (pyJoin "\n" frontmatter_lines ++ clean_content)

/-- Model of BlockchainAgentGenerator.validate_blockchain_agent_config
(lines 44-58): navigate opencode.agents.subagents.blockchain-agent; an
empty or absent section, or a section whose enabled value is falsy, yields
None (a skip); otherwise the section itself. -/
def blockchain_agent_section (config : TomlDict) : TomlDict :=
  getTableD (getTableD (getTableD (getTableD config "opencode") "agents") "subagents") "blockchain-agent"

def validate_blockchain_agent_config (config : TomlDict) : Option TomlDict :=
  let blockchain_agent_config := blockchain_agent_section config
  if blockchain_agent_config.isEmpty then
    none
  else if !(tomlGetD blockchain_agent_config "enabled" (.b true)).truthy then
    none
  else
    some blockchain_agent_config

/-- Model of BlockchainAgentGenerator.generate (lines 266-282), with the
TOML document already parsed (load_toml_config and TOML parsing are outside
the model): a skipped validation returns false and performs nothing;
otherwise the template is resolved and the output written.  An error value
stands for the except-branch that prints the exception and exits with
status 1. -/
def generate (root : String) (config : TomlDict) : GenM Bool := do
  match validate_blockchain_agent_config config with
  | none => genPure false
  | some sect => do
    let template_content ← validate_and_read_template root (Config.ofDict sect)
    write_agent_config root sect template_content
    genPure true

end BlockchainAgent

/-- Spec-side description (from the claim wording) of the kept
additional-file fragments: each listed file whose content is not pure
whitespace contributes its content under a basename heading, in list
order. -/
def additionalFilesSpecFrags (fs : FS) (root : String) (files : List String) : List String :=
  files.filterMap (fun f =>
    match FS.readFile fs (resolvePath root f) with
    | some c =>
      if pyStrip c ≠ "" then some ("## " ++ basename (resolvePath root f) ++ "\n\n" ++ c) else none
    | none => none)

/-- Spec-side description of the additional-files content: the kept
fragments joined with a blank line. -/
def additionalFilesSpec (fs : FS) (root : String) (files : List String) : String :=
  pyJoin "\n\n" (additionalFilesSpecFrags fs root files)

theorem genBind_def {α β : Type} (m : GenM α) (f : α → GenM β) : m >>= f = genBind m f := rfl

theorem genPure_def {α : Type} (a : α) : (pure a : GenM α) = genPure a := rfl

theorem processAdditionalFilesAux_ok (root : String) (fs : FS) :
    ∀ (files : List String),
    (∀ f ∈ files, (FS.readFile fs (resolvePath root f)).isSome) →
    ∀ t : Trace, ∃ t' : Trace,
      processAdditionalFilesAux root files fs t =
        (Except.ok (additionalFilesSpecFrags fs root files), t') := by
  intro files
  induction files with
  | nil =>
    intro _ t
    exact ⟨t, rfl⟩
  | cons f rest ih =>
    intro h t
    obtain ⟨c, hc⟩ := Option.isSome_iff_exists.mp (h f (by simp))
    have hrest : ∀ g ∈ rest, (FS.readFile fs (resolvePath root g)).isSome :=
      fun g hg => h g (by simp [hg])
    obtain ⟨t', ht'⟩ := ih hrest
      { t with reads := t.reads ++ [resolvePath root f] ++ [resolvePath root f] }
    refine ⟨t', ?_⟩
    simp only [processAdditionalFilesAux, genBind_def, genBind, fsExists, fsReadFileMsg, hc,
      Option.isSome_some, Bool.not_true, Bool.false_eq_true, if_false,
      additionalFilesSpecFrags, List.filterMap_cons, ht']
    by_cases hte : pyStrip c = ""
    · simp [hte, genPure]
    · simp [hte, genPure]

theorem genBind_fst_ok {α β : Type} {m : GenM α} {f : α → GenM β} {fs : FS} (v : α)
    {r : Except String β} (hm : ∀ t, (m fs t).1 = Except.ok v)
    (hf : ∀ t, (f v fs t).1 = r) : ∀ t, (genBind m f fs t).1 = r := by
  intro t
  rcases hmt : m fs t with ⟨rr, t1⟩
  have hrr : rr = Except.ok v := by rw [← hm t, hmt]
  subst hrr
  simpa [genBind, hmt] using hf t1

theorem genBind_fst_err {α β : Type} {m : GenM α} {f : α → GenM β} {fs : FS}
    {e : String} (hm : ∀ t, (m fs t).1 = Except.error e) :
    ∀ t, (genBind m f fs t).1 = Except.error e := by
  intro t
  rcases hmt : m fs t with ⟨rr, t1⟩
  have hrr : rr = Except.error e := by rw [← hm t, hmt]
  subst hrr
  simp [genBind, hmt]

theorem process_additional_files_fst (root : String) (fs : FS) (files : List String)
    (hex : ∀ f ∈ files, (FS.readFile fs (resolvePath root f)).isSome) :
    ∀ t, (process_additional_files root files fs t).1 =
      Except.ok (additionalFilesSpec fs root files) := by
  intro t
  by_cases hnil : files.isEmpty
  · have : files = [] := by simpa [List.isEmpty_iff] using hnil
    subst this
    simp [process_additional_files, genPure, additionalFilesSpec, additionalFilesSpecFrags, pyJoin]
  · obtain ⟨t', ht'⟩ := processAdditionalFilesAux_ok root fs files hex t
    simp [process_additional_files, hnil, genBind_def, genBind, ht', genPure, additionalFilesSpec]

theorem blockchain_replace_fst (root : String) (cfg : Config) (fs : FS)
    (hstrat : cfg.additional_files_strategy = "replace")
    (hne : cfg.additional_files ≠ [])
    (hlang : cfg.lang = "" ∨ cfg.lang ∈ BlockchainAgent.SUPPORTED_LANGUAGES)
    (hcust : ¬(cfg.template = "custom" ∧ cfg.template_file = ""))
    (hex : ∀ f ∈ cfg.additional_files, (FS.readFile fs (resolvePath root f)).isSome) :
    ∀ t, (BlockchainAgent.validate_and_read_template root cfg fs t).1 =
      Except.ok (additionalFilesSpec fs root cfg.additional_files) := by
  have hl : (cfg.lang ≠ "" && !(BlockchainAgent.SUPPORTED_LANGUAGES.contains cfg.lang)) = false := by
    rcases hlang with h | h
    · simp [h]
    · simp [h]
  have hs : (["merge", "replace"].contains cfg.additional_files_strategy) = true := by
    simp [hstrat]
  have hc : (cfg.template == "custom" && cfg.template_file == "") = false := by
    by_cases h1 : cfg.template = "custom"
    · have h2 : cfg.template_file ≠ "" := fun h2 => hcust ⟨h1, h2⟩
      simp [h1, h2]
    · simp [h1]
  have hempty : cfg.additional_files.isEmpty = false := by
    simpa [List.isEmpty_iff] using hne
  intro t
  simp only [BlockchainAgent.validate_and_read_template, hl, hs, hc, genBind_def,
    Bool.false_eq_true, if_false, Bool.not_true, if_true]
  have hmain : ∀ t2, (BlockchainAgent.main_template_content root cfg fs t2).1 = Except.ok "" := by
    intro t2
    simp [BlockchainAgent.main_template_content, hstrat, hempty, genPure]
  have hproc := process_additional_files_fst root fs cfg.additional_files hex
  have hrest : ∀ t2, ((genBind (BlockchainAgent.main_template_content root cfg) fun main =>
      genBind (process_additional_files root cfg.additional_files) fun additional =>
        genPure (combineByStrategy cfg.additional_files_strategy cfg.additional_files main additional)) fs t2).1 =
      Except.ok (additionalFilesSpec fs root cfg.additional_files) := by
    refine genBind_fst_ok _ hmain ?_
    refine genBind_fst_ok _ hproc ?_
    intro t2
    simp [genPure, combineByStrategy, hstrat, hempty]
  split
  · exact genBind_fst_ok () (fun t2 => rfl) hrest t
  · exact genBind_fst_ok () (fun t2 => rfl) hrest t

/-- Claim C1 (strategy exclusivity): whenever the strategy is replace and
additional_files is non-empty (and the config passes the up-front language
and custom-template validations, with every listed file present),
validate_and_read_template of the blockchain-agent generator returns
exactly the concatenation built from the additional files - each file with
non-whitespace content rendered as a basename heading followed by its
content, fragments joined by a blank line - so no base, language or custom
template content can appear in the result. -/
theorem claim_C1_replace_exclusivity (root : String) (cfg : Config) (fs : FS)
    (hstrat : cfg.additional_files_strategy = "replace")
    (hne : cfg.additional_files ≠ [])
    (hlang : cfg.lang = "" ∨ cfg.lang ∈ BlockchainAgent.SUPPORTED_LANGUAGES)
    (hcust : ¬(cfg.template = "custom" ∧ cfg.template_file = ""))
    (hex : ∀ f ∈ cfg.additional_files, (FS.readFile fs (resolvePath root f)).isSome) :
    (runGen (BlockchainAgent.validate_and_read_template root cfg) fs).1 =
      Except.ok (additionalFilesSpec fs root cfg.additional_files) :=
  blockchain_replace_fst root cfg fs hstrat hne hlang hcust hex {}

/-- Witness for claim C1: the config of spec example 4, with a base template
present on disk; the output body is exactly the extra.md fragment. -/
theorem claim_C1_witness :
    (runGen (BlockchainAgent.validate_and_read_template "r"
        { template := "default", template_file := "", additional_files := ["extra.md"],
          additional_files_strategy := "replace", include_base_template := true, lang := "" })
        [("r/control/agents/subagents/blockchain-agent/base.md", "# Base"), ("r/extra.md", "X")]).1 =
      Except.ok "## extra.md\n\nX" := by
  have h := claim_C1_replace_exclusivity "r"
    { template := "default", template_file := "", additional_files := ["extra.md"],
      additional_files_strategy := "replace", include_base_template := true, lang := "" }
    [("r/control/agents/subagents/blockchain-agent/base.md", "# Base"), ("r/extra.md", "X")]
    rfl (by decide) (Or.inl rfl) (by decide) (by decide)
  rw [h]
  have : additionalFilesSpec
      [("r/control/agents/subagents/blockchain-agent/base.md", "# Base"), ("r/extra.md", "X")]
      "r" ["extra.md"] = "## extra.md\n\nX" := by decide
  rw [this]

/-- Claim C10 (implicit whitespace-only replace edge case): with strategy
replace and a non-empty additional_files list (and a config passing the
up-front validations), if every listed file exists but holds only
whitespace, validate_and_read_template of the blockchain-agent generator
returns the empty string without raising: no fragment is kept, so the
generated document body is empty. -/
theorem claim_C10_whitespace_replace (root : String) (cfg : Config) (fs : FS)
    (hstrat : cfg.additional_files_strategy = "replace")
    (hne : cfg.additional_files ≠ [])
    (hlang : cfg.lang = "" ∨ cfg.lang ∈ BlockchainAgent.SUPPORTED_LANGUAGES)
    (hcust : ¬(cfg.template = "custom" ∧ cfg.template_file = ""))
    (hws : ∀ f ∈ cfg.additional_files,
      ∃ c, FS.readFile fs (resolvePath root f) = some c ∧ pyStrip c = "") :
    (runGen (BlockchainAgent.validate_and_read_template root cfg) fs).1 =
      Except.ok "" := by
  have hex : ∀ f ∈ cfg.additional_files, (FS.readFile fs (resolvePath root f)).isSome := by
    intro f hf
    obtain ⟨c, hc, _⟩ := hws f hf
    simp [hc]
  have h := blockchain_replace_fst root cfg fs hstrat hne hlang hcust hex {}
  have hnil : additionalFilesSpecFrags fs root cfg.additional_files = [] := by
    rw [additionalFilesSpecFrags, List.filterMap_eq_nil_iff]
    intro f hf
    obtain ⟨c, hc, hws'⟩ := hws f hf
    simp [hc, hws']
  have hspec : additionalFilesSpec fs root cfg.additional_files = "" := by
    rw [additionalFilesSpec, hnil]
    rfl
  rw [runGen, h, hspec]

/-- Witness for claim C10: a single whitespace-only additional file under
the replace strategy yields an empty body next to an existing base
template. -/
theorem claim_C10_witness :
    (runGen (BlockchainAgent.validate_and_read_template "r"
        { template := "default", template_file := "", additional_files := ["blank.md"],
          additional_files_strategy := "replace", include_base_template := true, lang := "" })
        [("r/control/agents/subagents/blockchain-agent/base.md", "# Base"), ("r/blank.md", "  \n\t\n")]).1 =
      Except.ok "" := by
  exact claim_C10_whitespace_replace "r"
    { template := "default", template_file := "", additional_files := ["blank.md"],
      additional_files_strategy := "replace", include_base_template := true, lang := "" }
    [("r/control/agents/subagents/blockchain-agent/base.md", "# Base"), ("r/blank.md", "  \n\t\n")]
    rfl (by decide) (Or.inl rfl) (by decide)
    (by
      intro f hf
      simp only [List.mem_singleton] at hf
      subst hf
      exact ⟨"  \n\t\n", by decide, by decide⟩)

/-- Claim C2 (merge inclusion): for the clean generator with strategy
merge - given that the main-template computation succeeds with value m and
every listed additional file exists - validate_and_read_template returns
m followed by the Additional Files heading and the additional content
whenever some listed file has non-whitespace content, and m alone when the
additional content is empty; and every non-whitespace file contributes its
content under its basename heading to the kept fragments. -/
theorem claim_C2_merge_inclusion (root : String) (cfg : Config) (fs : FS) (m : String)
    (hstrat : cfg.additional_files_strategy = "merge")
    (hmain : ∀ t, (Clean.main_template_content root cfg fs t).1 = Except.ok m)
    (hex : ∀ f ∈ cfg.additional_files, (FS.readFile fs (resolvePath root f)).isSome) :
    ((runGen (Clean.validate_and_read_template root cfg) fs).1 =
      Except.ok (if additionalFilesSpec fs root cfg.additional_files = "" then m
        else m ++ "\n\n# Additional Files\n\n" ++ additionalFilesSpec fs root cfg.additional_files))
    ∧ (∀ f ∈ cfg.additional_files, ∀ c, FS.readFile fs (resolvePath root f) = some c →
        pyStrip c ≠ "" →
        ("## " ++ basename (resolvePath root f) ++ "\n\n" ++ c) ∈
          additionalFilesSpecFrags fs root cfg.additional_files) := by
  constructor
  · have hs : (["merge", "replace"].contains cfg.additional_files_strategy) = true := by
      simp [hstrat]
    have hproc := process_additional_files_fst root fs cfg.additional_files hex
    have hcomb : ∀ t2, ((genPure (combineByStrategy cfg.additional_files_strategy
        cfg.additional_files m (additionalFilesSpec fs root cfg.additional_files)) : GenM String) fs t2).1 =
        Except.ok (if additionalFilesSpec fs root cfg.additional_files = "" then m
          else m ++ "\n\n# Additional Files\n\n" ++ additionalFilesSpec fs root cfg.additional_files) := by
      intro t2
      by_cases hadd : additionalFilesSpec fs root cfg.additional_files = ""
      · simp [genPure, combineByStrategy, hstrat, hadd]
      · simp [genPure, combineByStrategy, hstrat, hadd]
    simp only [runGen, Clean.validate_and_read_template, hs, genBind_def, Bool.not_true,
      Bool.false_eq_true, if_false, if_true]
    exact genBind_fst_ok _ hmain (genBind_fst_ok _ hproc hcomb) {}
  · intro f hf c hc hne
    rw [additionalFilesSpecFrags, List.mem_filterMap]
    refine ⟨f, hf, ?_⟩
    simp [hc, hne]

/-- Witness for claim C2: one non-whitespace additional file merged after
the clean base template. -/
theorem claim_C2_witness :
    (runGen (Clean.validate_and_read_template "r"
        { template := "default", template_file := "", additional_files := ["extra.md"],
          additional_files_strategy := "merge", include_base_template := true, lang := "" })
        [("r/control/commands/generic/clean/base.md", "# Base"), ("r/extra.md", "X")]).1 =
      Except.ok "# Base\n\n# Additional Files\n\n## extra.md\n\nX" := by
  have h := claim_C2_merge_inclusion "r"
    { template := "default", template_file := "", additional_files := ["extra.md"],
      additional_files_strategy := "merge", include_base_template := true, lang := "" }
    [("r/control/commands/generic/clean/base.md", "# Base"), ("r/extra.md", "X")]
    "# Base" rfl (fun t => rfl) (by decide)
  rw [h.1]
  have : additionalFilesSpec
      [("r/control/commands/generic/clean/base.md", "# Base"), ("r/extra.md", "X")]
      "r" ["extra.md"] = "## extra.md\n\nX" := by decide
  rw [this, if_neg (by decide)]
  rfl

/-- Counterexample to claim C3 as stated: with base.md = "# Base" and
elixir.md = "# Elixir", the blockchain-agent generator produces
"# Base" ++ "\n" ++ language part (its parts are joined by
"\n".join, not "\n\n".join), which differs from the claimed base fragment
++ "\n\n" ++ language part. -/
theorem claim_C3_counterexample :
    (runGen (BlockchainAgent.validate_and_read_template "r"
        { template := "default", template_file := "", additional_files := [],
          additional_files_strategy := "merge", include_base_template := true, lang := "elixir" })
        [("r/control/agents/subagents/blockchain-agent/base.md", "# Base"),
         ("r/control/agents/subagents/blockchain-agent/elixir.md", "# Elixir")]).1 =
      Except.ok "# Base\n\n\n# Elixir Blockchain Development Specifics\n\n# Elixir"
    ∧ "# Base\n\n\n# Elixir Blockchain Development Specifics\n\n# Elixir" ≠
      "# Base" ++ "\n\n" ++ "\n\n# Elixir Blockchain Development Specifics\n\n# Elixir" := by
  constructor
  · rfl
  · decide

/-- Claim C3 amended: with template default, include_base_template true,
lang set, and both template files present, the clean generator joins the
base and language fragments with a blank line ("\n\n".join), as the claim
states; the blockchain-agent generator instead joins its parts with a
single newline ("\n".join), its language part carrying a leading blank
line and generator-specific heading of its own, so its body is
base ++ "\n" ++ "\n\n# <Lang> Blockchain Development Specifics\n\n" ++
language content. -/
theorem claim_C3_join_separators (root tf l b c : String) (fs : FS)
    (hl : l ≠ "")
    (hbClean : FS.readFile fs (root ++ "/" ++ Clean.BASE_TEMPLATE_PATH) = some b)
    (hcClean : FS.readFile fs (root ++ "/" ++ Clean.LANG_TEMPLATE_PATH l) = some c)
    (hlang : l ∈ BlockchainAgent.SUPPORTED_LANGUAGES)
    (hbBc : FS.readFile fs (root ++ "/" ++ BlockchainAgent.BASE_TEMPLATE_PATH) = some b)
    (hcBc : FS.readFile fs (root ++ "/" ++ BlockchainAgent.LANG_TEMPLATE_PATH l) = some c)
    (hcne : c ≠ "") :
    ((runGen (Clean.validate_and_read_template root
        { template := "default", template_file := tf, additional_files := [],
          additional_files_strategy := "merge", include_base_template := true, lang := l }) fs).1 =
      Except.ok (b ++ "\n\n" ++ c))
    ∧ ((runGen (BlockchainAgent.validate_and_read_template root
        { template := "default", template_file := tf, additional_files := [],
          additional_files_strategy := "merge", include_base_template := true, lang := l }) fs).1 =
      Except.ok (b ++ "\n" ++ ("\n\n# " ++ pyTitle l ++ " Blockchain Development Specifics\n\n" ++ c))) := by
  constructor
  · simp [runGen, Clean.validate_and_read_template, Clean.main_template_content,
      Clean.default_template_content, process_additional_files, combineByStrategy,
      genBind_def, genBind, genPure, fsExists, fsReadFileMsg, warn, throwErr,
      hbClean, hcClean, hl, pyJoin]
  · rcases (by simpa [BlockchainAgent.SUPPORTED_LANGUAGES] using hlang : l = "elixir" ∨ l = "typescript") with h | h <;>
      subst h <;>
      by_cases htf : tf = "" <;>
      simp [runGen, BlockchainAgent.validate_and_read_template, BlockchainAgent.main_template_content,
        BlockchainAgent.default_template_content, process_additional_files, combineByStrategy,
        BlockchainAgent.SUPPORTED_LANGUAGES, htf,
        genBind_def, genBind, genPure, fsExists, fsReadFileMsg, fsSizeIsZero, warn, throwErr,
        hbBc, hcBc, hcne, pyJoin]

/-- Witness for the amended claim C3: the spec example config with base and
elixir templates present for both generators. -/
theorem claim_C3_witness :
    ((runGen (Clean.validate_and_read_template "r"
        { template := "default", template_file := "", additional_files := [],
          additional_files_strategy := "merge", include_base_template := true, lang := "elixir" })
        [("r/control/commands/generic/clean/base.md", "# Base"),
         ("r/control/commands/generic/clean/elixir.md", "# Elixir"),
         ("r/control/agents/subagents/blockchain-agent/base.md", "# Base"),
         ("r/control/agents/subagents/blockchain-agent/elixir.md", "# Elixir")]).1 =
      Except.ok "# Base\n\n# Elixir")
    ∧ ((runGen (BlockchainAgent.validate_and_read_template "r"
        { template := "default", template_file := "", additional_files := [],
          additional_files_strategy := "merge", include_base_template := true, lang := "elixir" })
        [("r/control/commands/generic/clean/base.md", "# Base"),
         ("r/control/commands/generic/clean/elixir.md", "# Elixir"),
         ("r/control/agents/subagents/blockchain-agent/base.md", "# Base"),
         ("r/control/agents/subagents/blockchain-agent/elixir.md", "# Elixir")]).1 =
      Except.ok "# Base\n\n\n# Elixir Blockchain Development Specifics\n\n# Elixir") := by
  have h := claim_C3_join_separators "r" "" "elixir" "# Base" "# Elixir"
    [("r/control/commands/generic/clean/base.md", "# Base"),
     ("r/control/commands/generic/clean/elixir.md", "# Elixir"),
     ("r/control/agents/subagents/blockchain-agent/base.md", "# Base"),
     ("r/control/agents/subagents/blockchain-agent/elixir.md", "# Elixir")]
    (by decide) (by decide) (by decide) (by decide) (by decide) (by decide) (by decide)
  exact ⟨h.1.trans (by rfl), h.2.trans (by rfl)⟩

theorem findCloseDelim_eq_none (ls : List String)
    (h : ∀ x ∈ ls, pyStrip x ≠ "---") : findCloseDelim ls = none := by
  induction ls with
  | nil => rfl
  | cons l ls ih =>
    have hl : (pyStrip l == "---") = false := by
      simpa using h l (by simp)
    simp only [findCloseDelim, hl, Bool.false_eq_true, if_false]
    exact ih (fun x hx => h x (by simp [hx]))

theorem findCloseDelim_append (mid : List String) (cl : String) (rest : List String)
    (hmid : ∀ x ∈ mid, pyStrip x ≠ "---") (hcl : pyStrip cl = "---") :
    findCloseDelim (mid ++ cl :: rest) = some rest := by
  induction mid with
  | nil =>
    simp [findCloseDelim, hcl]
  | cons m mid ih =>
    have hm : (pyStrip m == "---") = false := by
      simpa using hmid m (by simp)
    simp only [List.cons_append, findCloseDelim, hm, Bool.false_eq_true, if_false]
    exact ih (fun x hx => hmid x (by simp [hx]))

/-- Counterexample to claim C4 as stated: the source compares lines with
strip(), not with exact equality, so an input whose first line is " ---"
(which is not exactly "---") is still treated as an opening delimiter and
the block is removed rather than the input being returned unchanged. -/
theorem claim_C4_counterexample :
    (pySplitChar (Char.ofNat 10) " ---\nx\n---\nBODY").headD "" = " ---"
    ∧ " ---" ≠ "---"
    ∧ strip_frontmatter " ---\nx\n---\nBODY" = "BODY"
    ∧ strip_frontmatter " ---\nx\n---\nBODY" ≠ " ---\nx\n---\nBODY" := by
  refine ⟨by decide, by decide, by rfl, by decide⟩

/-- Claim C4 amended: _strip_frontmatter is a total function on line-split
content that (i) returns the input unchanged when the first line does not
strip() to the delimiter, (ii) returns the input unchanged when no later
line strips() to the delimiter, and (iii) when the first line and some
later line both strip() to the delimiter, returns the lines after the
first such closing line with leading whitespace-only lines dropped,
re-joined with newline.  (The claim said "exactly ---"; the source
compares via strip(), accepting delimiter lines with surrounding
whitespace.) -/
theorem claim_C4_strip_frontmatter :
    (∀ content first rest, pySplitChar (Char.ofNat 10) content = first :: rest →
      pyStrip first ≠ "---" → strip_frontmatter content = content)
    ∧ (∀ content first rest, pySplitChar (Char.ofNat 10) content = first :: rest →
      (∀ x ∈ rest, pyStrip x ≠ "---") → strip_frontmatter content = content)
    ∧ (∀ content first mid cl rest,
      pySplitChar (Char.ofNat 10) content = first :: (mid ++ cl :: rest) →
      pyStrip first = "---" → (∀ x ∈ mid, pyStrip x ≠ "---") → pyStrip cl = "---" →
      strip_frontmatter content =
        pyJoin "\n" (rest.dropWhile (fun l => pyStrip l == ""))) := by
  refine ⟨?_, ?_, ?_⟩
  · intro content first rest hsplit hfirst
    have hf : (pyStrip first == "---") = false := by simpa using hfirst
    simp only [strip_frontmatter, hsplit, hf, Bool.false_eq_true, if_false]
  · intro content first rest hsplit hrest
    simp only [strip_frontmatter, hsplit]
    by_cases hf : pyStrip first == "---"
    · simp only [hf, if_true, findCloseDelim_eq_none rest hrest]
    · simp only [hf, Bool.false_eq_true, if_false]
  · intro content first mid cl rest hsplit hfirst hmid hcl
    have hf : (pyStrip first == "---") = true := by simpa using hfirst
    simp only [strip_frontmatter, hsplit, hf, if_true,
      findCloseDelim_append mid cl rest hmid hcl]

/-- Witness for the amended claim C4: a document without frontmatter is
unchanged, an unclosed delimiter is unchanged, and the spec example
"---\ntitle: old\n---\n\nBODY" strips to exactly "BODY". -/
theorem claim_C4_witness :
    strip_frontmatter "x\ny" = "x\ny"
    ∧ strip_frontmatter "---\nabc" = "---\nabc"
    ∧ strip_frontmatter "---\ntitle: old\n---\n\nBODY" = "BODY" := by
  refine ⟨?_, ?_, ?_⟩
  · exact claim_C4_strip_frontmatter.1 "x\ny" "x" ["y"] (by decide) (by decide)
  · exact claim_C4_strip_frontmatter.2.1 "---\nabc" "---" ["abc"] (by decide) (by decide)
  · have h := claim_C4_strip_frontmatter.2.2 "---\ntitle: old\n---\n\nBODY"
      "---" ["title: old"] "---" ["", "BODY"] (by decide) (by decide) (by decide) (by decide)
    rw [h]
    rfl

theorem blockchain_lang_check_false {cfg : Config}
    (hlang : cfg.lang = "" ∨ cfg.lang ∈ BlockchainAgent.SUPPORTED_LANGUAGES) :
    (cfg.lang ≠ "" && !(BlockchainAgent.SUPPORTED_LANGUAGES.contains cfg.lang)) = false := by
  rcases hlang with h | h <;> simp [h]

/-- Counterexample to claim C5 as stated: with template custom, empty
template_file and the invalid strategy "bogus", the blockchain-agent
generator raises the invalid-strategy ValueError first, whose message does
not contain "template_file is empty" - so the claimed message does not
hold for all values of additional_files_strategy. -/
theorem claim_C5_counterexample :
    runGen (BlockchainAgent.validate_and_read_template "r"
        { template := "custom", template_file := "", additional_files := [],
          additional_files_strategy := "bogus", include_base_template := true, lang := "" }) [] =
      (Except.error ("Invalid additional_files_strategy: bogus. Must be " ++ sqc ++ "merge"
        ++ sqc ++ " or " ++ sqc ++ "replace" ++ sqc), {})
    ∧ strContains ("Invalid additional_files_strategy: bogus. Must be " ++ sqc ++ "merge"
        ++ sqc ++ " or " ++ sqc ++ "replace" ++ sqc) "template_file is empty" = false := by
  exact ⟨rfl, by decide⟩

/-- Claim C5 amended: with template custom and empty template_file, and a
valid strategy, the blockchain-agent generator raises the ValueError
containing "template_file is empty" with an empty effect trace (before any
file I/O, for every filesystem) provided its language validation passes
first; the clean generator does the same provided the strategy is merge or
additional_files is empty (under replace with non-empty additional_files
the custom branch is skipped entirely and no such error is raised). -/
theorem claim_C5_empty_template_file (root : String) (cfg : Config) (fs : FS)
    (hcust : cfg.template = "custom") (hfile : cfg.template_file = "")
    (hstrat : cfg.additional_files_strategy = "merge" ∨ cfg.additional_files_strategy = "replace") :
    ((cfg.lang = "" ∨ cfg.lang ∈ BlockchainAgent.SUPPORTED_LANGUAGES) →
      runGen (BlockchainAgent.validate_and_read_template root cfg) fs =
        (Except.error "Custom template specified but template_file is empty", {}))
    ∧ ((cfg.additional_files_strategy = "merge" ∨ cfg.additional_files = []) →
      runGen (Clean.validate_and_read_template root cfg) fs =
        (Except.error "Custom template specified but template_file is empty", {})) := by
  have hs : (["merge", "replace"].contains cfg.additional_files_strategy) = true := by
    rcases hstrat with h | h <;> simp [h]
  constructor
  · intro hlang
    rcases hstrat with h | h <;> rcases hlang with h3 | h3 <;>
      simp [runGen, BlockchainAgent.validate_and_read_template, hcust, hfile, h, h3,
        genBind_def, genBind, throwErr]
  · intro hc
    rcases hstrat with h | h <;> rcases hc with h2 | h2 <;>
      simp_all [runGen, Clean.validate_and_read_template, Clean.main_template_content,
        readCustomTemplate, hcust, hfile, genBind_def, genBind, throwErr, genPure]

/-- Witness for the amended claim C5: the spec example config
(template custom, empty template_file) under the merge strategy raises the
template_file-is-empty ValueError with an empty effect trace in both
generators. -/
theorem claim_C5_witness :
    runGen (BlockchainAgent.validate_and_read_template "r"
        { template := "custom", template_file := "", additional_files := ["x.md"],
          additional_files_strategy := "merge", include_base_template := true, lang := "" }) [] =
      (Except.error "Custom template specified but template_file is empty", {})
    ∧ runGen (Clean.validate_and_read_template "r"
        { template := "custom", template_file := "", additional_files := ["x.md"],
          additional_files_strategy := "merge", include_base_template := true, lang := "" }) [] =
      (Except.error "Custom template specified but template_file is empty", {}) := by
  have h := claim_C5_empty_template_file "r"
    { template := "custom", template_file := "", additional_files := ["x.md"],
      additional_files_strategy := "merge", include_base_template := true, lang := "" }
    [] rfl rfl (Or.inl rfl)
  exact ⟨h.1 (Or.inl rfl), h.2 (Or.inl rfl)⟩

/-- Counterexample to claim C6 as stated: in the blockchain-agent generator
the language validation runs before the strategy validation, so a config
with both an unsupported lang and an invalid strategy raises the
unsupported-language ValueError, whose message does not contain
"Invalid additional_files_strategy" - the error is therefore not
independent of the other config fields. -/
theorem claim_C6_counterexample :
    runGen (BlockchainAgent.validate_and_read_template "r"
        { template := "default", template_file := "", additional_files := [],
          additional_files_strategy := "bogus", include_base_template := true, lang := "ruby" }) [] =
      (Except.error "Unsupported language: ruby. Supported languages: elixir, typescript", {})
    ∧ strContains "Unsupported language: ruby. Supported languages: elixir, typescript"
        "Invalid additional_files_strategy" = false := by
  exact ⟨rfl, by decide⟩

/-- Claim C6 amended: a strategy outside merge/replace always raises the
invalid-strategy ValueError with an empty effect trace (before any file
I/O, for every filesystem and all other fields) in the commit generator,
where the strategy check comes first; in the blockchain-agent generator the
same holds provided the language validation passes first (lang empty or
supported). -/
theorem claim_C6_invalid_strategy (root : String) (cfg : Config) (fs : FS)
    (hstrat : ¬(cfg.additional_files_strategy = "merge" ∨ cfg.additional_files_strategy = "replace")) :
    (runGen (Commit.validate_and_read_template root cfg) fs =
      (Except.error ("Invalid additional_files_strategy: " ++ cfg.additional_files_strategy
        ++ ". Must be " ++ sqc ++ "merge" ++ sqc ++ " or " ++ sqc ++ "replace" ++ sqc), {}))
    ∧ ((cfg.lang = "" ∨ cfg.lang ∈ BlockchainAgent.SUPPORTED_LANGUAGES) →
      runGen (BlockchainAgent.validate_and_read_template root cfg) fs =
        (Except.error ("Invalid additional_files_strategy: " ++ cfg.additional_files_strategy
          ++ ". Must be " ++ sqc ++ "merge" ++ sqc ++ " or " ++ sqc ++ "replace" ++ sqc), {})) := by
  have h1 : cfg.additional_files_strategy ≠ "merge" := fun h => hstrat (Or.inl h)
  have h2 : cfg.additional_files_strategy ≠ "replace" := fun h => hstrat (Or.inr h)
  constructor
  · simp [runGen, Commit.validate_and_read_template, h1, h2, genBind_def, genBind, throwErr]
  · intro hlang
    rcases hlang with h3 | h3 <;>
      simp [runGen, BlockchainAgent.validate_and_read_template, h1, h2, h3,
        genBind_def, genBind, throwErr]

/-- Witness for the amended claim C6: the strategy "bogus" raises the
invalid-strategy ValueError with no file I/O in both generators. -/
theorem claim_C6_witness :
    runGen (Commit.validate_and_read_template "r"
        { template := "default", template_file := "", additional_files := [],
          additional_files_strategy := "bogus", include_base_template := true, lang := "" }) [] =
      (Except.error ("Invalid additional_files_strategy: bogus. Must be " ++ sqc ++ "merge"
        ++ sqc ++ " or " ++ sqc ++ "replace" ++ sqc), {})
    ∧ runGen (BlockchainAgent.validate_and_read_template "r"
        { template := "default", template_file := "", additional_files := [],
          additional_files_strategy := "bogus", include_base_template := true, lang := "" }) [] =
      (Except.error ("Invalid additional_files_strategy: bogus. Must be " ++ sqc ++ "merge"
        ++ sqc ++ " or " ++ sqc ++ "replace" ++ sqc), {}) := by
  have h := claim_C6_invalid_strategy "r"
    { template := "default", template_file := "", additional_files := [],
      additional_files_strategy := "bogus", include_base_template := true, lang := "" }
    [] (by decide)
  exact ⟨h.1, h.2 (Or.inl rfl)⟩

/-- Counterexample to claim C7 as stated: in the blockchain-agent generator
a missing language template file is fatal (FileNotFoundError), not a
warning-and-skip - with lang elixir supported, base.md present and
elixir.md absent, validate_and_read_template raises. -/
theorem claim_C7_counterexample :
    (runGen (BlockchainAgent.validate_and_read_template "r"
        { template := "default", template_file := "", additional_files := [],
          additional_files_strategy := "merge", include_base_template := true, lang := "elixir" })
        [("r/control/agents/subagents/blockchain-agent/base.md", "# Base")]).1 =
      Except.error "Language template not found: r/control/agents/subagents/blockchain-agent/elixir.md" := by
  rfl

/-- Claim C7 amended, covering the four language-fragment cases of the two
cited generators: (i) blockchain-agent raises FileNotFoundError when the
language file is missing (fatal, not a warning); (ii) blockchain-agent
warns and skips when the language file exists but is empty, returning the
base fragment alone; (iii) clean warns and skips when the language file is
missing, returning the base fragment alone; (iv) clean includes an
existing language file even when it is empty (no warning), appending an
empty fragment after the separator - so the fragment is not included only
when non-empty. -/
theorem claim_C7_language_fragment :
    (∀ root l b : String, ∀ fs : FS, l ∈ BlockchainAgent.SUPPORTED_LANGUAGES →
      FS.readFile fs (root ++ "/" ++ BlockchainAgent.BASE_TEMPLATE_PATH) = some b →
      FS.readFile fs (root ++ "/" ++ BlockchainAgent.LANG_TEMPLATE_PATH l) = none →
      (runGen (BlockchainAgent.validate_and_read_template root
        { template := "default", template_file := "", additional_files := [],
          additional_files_strategy := "merge", include_base_template := true, lang := l }) fs).1 =
        Except.error ("Language template not found: " ++ (root ++ "/" ++ BlockchainAgent.LANG_TEMPLATE_PATH l)))
    ∧ (∀ root l b : String, ∀ fs : FS, l ∈ BlockchainAgent.SUPPORTED_LANGUAGES →
      FS.readFile fs (root ++ "/" ++ BlockchainAgent.BASE_TEMPLATE_PATH) = some b →
      FS.readFile fs (root ++ "/" ++ BlockchainAgent.LANG_TEMPLATE_PATH l) = some "" →
      (runGen (BlockchainAgent.validate_and_read_template root
        { template := "default", template_file := "", additional_files := [],
          additional_files_strategy := "merge", include_base_template := true, lang := l }) fs).1 =
        Except.ok b
      ∧ (runGen (BlockchainAgent.validate_and_read_template root
        { template := "default", template_file := "", additional_files := [],
          additional_files_strategy := "merge", include_base_template := true, lang := l }) fs).2.warns =
        ["Warning: Language template is empty: " ++ (root ++ "/" ++ BlockchainAgent.LANG_TEMPLATE_PATH l)
          ++ ". Skipping language-specific content."])
    ∧ (∀ root l b : String, ∀ fs : FS, l ≠ "" →
      FS.readFile fs (root ++ "/" ++ Clean.BASE_TEMPLATE_PATH) = some b →
      FS.readFile fs (root ++ "/" ++ Clean.LANG_TEMPLATE_PATH l) = none →
      (runGen (Clean.validate_and_read_template root
        { template := "default", template_file := "", additional_files := [],
          additional_files_strategy := "merge", include_base_template := true, lang := l }) fs).1 =
        Except.ok b
      ∧ (runGen (Clean.validate_and_read_template root
        { template := "default", template_file := "", additional_files := [],
          additional_files_strategy := "merge", include_base_template := true, lang := l }) fs).2.warns =
        ["Warning: Language template not found at " ++ (root ++ "/" ++ Clean.LANG_TEMPLATE_PATH l)])
    ∧ (∀ root l b : String, ∀ fs : FS, l ≠ "" →
      FS.readFile fs (root ++ "/" ++ Clean.BASE_TEMPLATE_PATH) = some b →
      FS.readFile fs (root ++ "/" ++ Clean.LANG_TEMPLATE_PATH l) = some "" →
      (runGen (Clean.validate_and_read_template root
        { template := "default", template_file := "", additional_files := [],
          additional_files_strategy := "merge", include_base_template := true, lang := l }) fs).1 =
        Except.ok (b ++ "\n\n")
      ∧ (runGen (Clean.validate_and_read_template root
        { template := "default", template_file := "", additional_files := [],
          additional_files_strategy := "merge", include_base_template := true, lang := l }) fs).2.warns =
        []) := by
  refine ⟨?_, ?_, ?_, ?_⟩
  · intro root l b fs hlang hb hlangf
    rcases (by simpa [BlockchainAgent.SUPPORTED_LANGUAGES] using hlang : l = "elixir" ∨ l = "typescript") with h | h <;>
      subst h <;>
      simp [runGen, BlockchainAgent.validate_and_read_template, BlockchainAgent.main_template_content,
        BlockchainAgent.default_template_content, process_additional_files, combineByStrategy,
        BlockchainAgent.SUPPORTED_LANGUAGES,
        genBind_def, genBind, genPure, fsExists, fsReadFileMsg, fsSizeIsZero, warn, throwErr,
        hb, hlangf, pyJoin]
  · intro root l b fs hlang hb hlangf
    rcases (by simpa [BlockchainAgent.SUPPORTED_LANGUAGES] using hlang : l = "elixir" ∨ l = "typescript") with h | h <;>
      subst h <;>
      constructor <;>
      simp [runGen, BlockchainAgent.validate_and_read_template, BlockchainAgent.main_template_content,
        BlockchainAgent.default_template_content, process_additional_files, combineByStrategy,
        BlockchainAgent.SUPPORTED_LANGUAGES,
        genBind_def, genBind, genPure, fsExists, fsReadFileMsg, fsSizeIsZero, warn, throwErr,
        hb, hlangf, pyJoin]
  · intro root l b fs hl hb hlangf
    constructor <;>
      simp [runGen, Clean.validate_and_read_template, Clean.main_template_content,
        Clean.default_template_content, process_additional_files, combineByStrategy,
        genBind_def, genBind, genPure, fsExists, fsReadFileMsg, warn, throwErr,
        hb, hlangf, hl, pyJoin]
  · intro root l b fs hl hb hlangf
    constructor <;>
      simp [runGen, Clean.validate_and_read_template, Clean.main_template_content,
        Clean.default_template_content, process_additional_files, combineByStrategy,
        genBind_def, genBind, genPure, fsExists, fsReadFileMsg, warn, throwErr,
        hb, hlangf, hl, pyJoin]

/-- Witness for the amended claim C7: concrete runs of the four
language-fragment cases. -/
theorem claim_C7_witness :
    ((runGen (BlockchainAgent.validate_and_read_template "r"
        { template := "default", template_file := "", additional_files := [],
          additional_files_strategy := "merge", include_base_template := true, lang := "elixir" })
        [("r/control/agents/subagents/blockchain-agent/base.md", "B")]).1 =
      Except.error "Language template not found: r/control/agents/subagents/blockchain-agent/elixir.md")
    ∧ ((runGen (BlockchainAgent.validate_and_read_template "r"
        { template := "default", template_file := "", additional_files := [],
          additional_files_strategy := "merge", include_base_template := true, lang := "elixir" })
        [("r/control/agents/subagents/blockchain-agent/base.md", "B"),
         ("r/control/agents/subagents/blockchain-agent/elixir.md", "")]).1 =
      Except.ok "B")
    ∧ ((runGen (Clean.validate_and_read_template "r"
        { template := "default", template_file := "", additional_files := [],
          additional_files_strategy := "merge", include_base_template := true, lang := "elixir" })
        [("r/control/commands/generic/clean/base.md", "B")]).2.warns =
      ["Warning: Language template not found at r/control/commands/generic/clean/elixir.md"])
    ∧ ((runGen (Clean.validate_and_read_template "r"
        { template := "default", template_file := "", additional_files := [],
          additional_files_strategy := "merge", include_base_template := true, lang := "elixir" })
        [("r/control/commands/generic/clean/base.md", "B"),
         ("r/control/commands/generic/clean/elixir.md", "")]).1 =
      Except.ok "B\n\n") := by
  refine ⟨?_, ?_, ?_, ?_⟩
  · exact (claim_C7_language_fragment.1 "r" "elixir" "B"
      [("r/control/agents/subagents/blockchain-agent/base.md", "B")]
      (by decide) (by decide) (by decide)).trans (by rfl)
  · exact (claim_C7_language_fragment.2.1 "r" "elixir" "B"
      [("r/control/agents/subagents/blockchain-agent/base.md", "B"),
       ("r/control/agents/subagents/blockchain-agent/elixir.md", "")]
      (by decide) (by decide) (by decide)).1
  · exact ((claim_C7_language_fragment.2.2.1 "r" "elixir" "B"
      [("r/control/commands/generic/clean/base.md", "B")]
      (by decide) (by decide) (by decide)).2).trans (by rfl)
  · exact ((claim_C7_language_fragment.2.2.2 "r" "elixir" "B"
      [("r/control/commands/generic/clean/base.md", "B"),
       ("r/control/commands/generic/clean/elixir.md", "")]
      (by decide) (by decide) (by decide)).1).trans (by rfl)

/-- Claim C8 (disabled gate): when the blockchain-agent config section is
absent or empty, or carries a falsy enabled value, generate returns false
with a completely empty effect trace - in particular no file is written
and no directory is created (and no warning or template read happens
either), for every filesystem. -/
theorem claim_C8_disabled_gate (root : String) (config : TomlDict) (fs : FS)
    (h : BlockchainAgent.blockchain_agent_section config = []
      ∨ (tomlGetD (BlockchainAgent.blockchain_agent_section config) "enabled" (.b true)).truthy = false) :
    runGen (BlockchainAgent.generate root config) fs = (Except.ok false, {}) := by
  have hv : BlockchainAgent.validate_blockchain_agent_config config = none := by
    rcases h with h | h
    · simp [BlockchainAgent.validate_blockchain_agent_config, h]
    · by_cases he : (BlockchainAgent.blockchain_agent_section config).isEmpty
      · simp [BlockchainAgent.validate_blockchain_agent_config, he]
      · simp [BlockchainAgent.validate_blockchain_agent_config, he, h]
  simp [runGen, BlockchainAgent.generate, hv, genPure]

/-- Witness for claim C8: a section with enabled = false, and a TOML
document with no section at all, both produce a false return with no
effects. -/
theorem claim_C8_witness :
    runGen (BlockchainAgent.generate "r"
      [("opencode", TomlVal.table [("agents", TomlVal.table [("subagents",
        TomlVal.table [("blockchain-agent", TomlVal.table [("enabled", TomlVal.b false)])])])])]) [] =
      (Except.ok false, {})
    ∧ runGen (BlockchainAgent.generate "r" []) [] = (Except.ok false, {}) := by
  constructor
  · exact claim_C8_disabled_gate "r"
      [("opencode", TomlVal.table [("agents", TomlVal.table [("subagents",
        TomlVal.table [("blockchain-agent", TomlVal.table [("enabled", TomlVal.b false)])])])])] []
      (Or.inr (by decide))
  · exact claim_C8_disabled_gate "r" [] [] (Or.inl rfl)

theorem tomlGet_cons (k' : String) (v : TomlVal) (d : TomlDict) (k : String) :
    tomlGet ((k', v) :: d) k = if k' == k then some v else tomlGet d k := by
  by_cases h : k' == k <;>
    simp [tomlGet, List.find?, h]

theorem extract_agent_config_cons (k' : String) (v : TomlVal) (d : TomlDict) :
    BlockchainAgent.extract_agent_config ((k', v) :: d) =
      if CONFIG_KEYS.contains k' then BlockchainAgent.extract_agent_config d
      else (k', v) :: BlockchainAgent.extract_agent_config d := by
  by_cases h : CONFIG_KEYS.contains k' <;>
    simp only [BlockchainAgent.extract_agent_config, List.filter_cons, h, Bool.not_true,
      Bool.not_false, Bool.false_eq_true, if_true, if_false]

theorem tomlGet_extract (d : TomlDict) (k : String) :
    tomlGet (BlockchainAgent.extract_agent_config d) k =
      if CONFIG_KEYS.contains k then none else tomlGet d k := by
  induction d with
  | nil =>
    by_cases h : CONFIG_KEYS.contains k <;>
      simp [BlockchainAgent.extract_agent_config, tomlGet, h]
  | cons kv d ih =>
    rcases kv with ⟨k', v⟩
    rw [extract_agent_config_cons]
    by_cases hk : CONFIG_KEYS.contains k'
    · rw [if_pos hk, ih]
      by_cases hck : CONFIG_KEYS.contains k
      · rw [if_pos hck, if_pos hck]
      · have hne : (k' == k) = false := by
          rw [beq_eq_false_iff_ne]
          intro hkk
          rw [hkk] at hk
          exact absurd hk (by simpa using hck)
        rw [if_neg (by simpa using hck), if_neg (by simpa using hck),
          tomlGet_cons, hne, if_neg (by simp)]
    · rw [if_neg hk, tomlGet_cons]
      by_cases he : k' == k
      · have heq : k' = k := by simpa using he
        subst heq
        rw [if_pos he, if_neg (by simpa using hk), tomlGet_cons, if_pos he]
      · rw [if_neg he, ih]
        by_cases hck : CONFIG_KEYS.contains k
        · rw [if_pos hck, if_pos hck]
        · rw [if_neg (by simpa using hck), if_neg (by simpa using hck),
            tomlGet_cons, if_neg he]

theorem tomlSet_cons (k0 : String) (v0 : TomlVal) (d : TomlDict) (k : String) (v : TomlVal) :
    tomlSet ((k0, v0) :: d) k v =
      (if k0 == k then (k0, v) else (k0, v0)) :: tomlSet d k v := by
  by_cases h : k0 == k
  · have h2 : k0 = k := by simpa using h
    simp [tomlSet, h, h2]
  · have h2 : ¬k0 = k := by simpa using h
    simp [tomlSet, h, h2]

theorem tomlGet_tomlSet_ne (d : TomlDict) (k1 k2 : String) (v : TomlVal) (h : k1 ≠ k2) :
    tomlGet (tomlSet d k1 v) k2 = tomlGet d k2 := by
  induction d with
  | nil => rfl
  | cons kv d ih =>
    rcases kv with ⟨k0, v0⟩
    rw [tomlSet_cons]
    by_cases he : k0 == k1
    · have : k0 = k1 := by simpa using he
      subst this
      rw [if_pos he, tomlGet_cons, tomlGet_cons,
        if_neg (by simpa using h), if_neg (by simpa using h)]
      exact ih
    · rw [if_neg he, tomlGet_cons, tomlGet_cons]
      by_cases h2 : k0 == k2
      · rw [if_pos h2, if_pos h2]
      · rw [if_neg h2, if_neg h2]
        exact ih

theorem tomlGet_tomlSet_self (d : TomlDict) (k : String) (v w : TomlVal)
    (h : tomlGet d k = some w) : tomlGet (tomlSet d k v) k = some v := by
  induction d with
  | nil => simp [tomlGet] at h
  | cons kv d ih =>
    rcases kv with ⟨k0, v0⟩
    rw [tomlSet_cons]
    by_cases he : k0 == k
    · rw [if_pos he, tomlGet_cons, if_pos he]
    · rw [if_neg he, tomlGet_cons, if_neg he]
      rw [tomlGet_cons, if_neg he] at h
      exact ih h

theorem tomlGet_append (a b : TomlDict) (k : String) :
    tomlGet (a ++ b) k = (tomlGet a k).or (tomlGet b k) := by
  induction a with
  | nil => simp [tomlGet]
  | cons kv a ih =>
    rcases kv with ⟨k0, v0⟩
    rw [List.cons_append, tomlGet_cons, tomlGet_cons]
    by_cases h : k0 == k
    · rw [if_pos h, if_pos h]
      rfl
    · rw [if_neg h, if_neg h]
      exact ih

theorem tomlGet_format_permissions (t : TomlDict) :
    tomlGet (BlockchainAgent.format_permissions t) "tools" =
      (tomlGet t "tools").filter TomlVal.truthy
    ∧ tomlGet (BlockchainAgent.format_permissions t) "bash" =
      (tomlGet t "bash_rules").filter TomlVal.truthy
    ∧ tomlGet (BlockchainAgent.format_permissions t) "edit" =
      (tomlGet t "edit_rules").filter TomlVal.truthy
    ∧ (∀ k, k ≠ "tools" → k ≠ "bash" → k ≠ "edit" →
        tomlGet (BlockchainAgent.format_permissions t) k = none) := by
  by_cases hemp : t.isEmpty
  · have ht : t = [] := by simpa [List.isEmpty_iff] using hemp
    subst ht
    refine ⟨rfl, rfl, rfl, fun k _ _ _ => rfl⟩
  · have hfmt : BlockchainAgent.format_permissions t =
        (if (tomlGetD t "tools" (.table [])).truthy then
          [("tools", tomlGetD t "tools" (.table []))] else []) ++
        (if (tomlGetD t "bash_rules" (.table [])).truthy then
          [("bash", tomlGetD t "bash_rules" (.table []))] else []) ++
        (if (tomlGetD t "edit_rules" (.table [])).truthy then
          [("edit", tomlGetD t "edit_rules" (.table []))] else []) := by
      simp [BlockchainAgent.format_permissions, hemp]
    refine ⟨?_, ?_, ?_, ?_⟩
    · rw [hfmt, tomlGet_append, tomlGet_append]
      rcases hg : tomlGet t "tools" with _ | w
      · have hfalse : (tomlGetD t "tools" (.table [])).truthy = false := by
          simp [tomlGetD, hg, TomlVal.truthy]
        rw [hfalse]
        split_ifs <;> simp_all [tomlGet, List.find?, Option.filter]
      · have hd : tomlGetD t "tools" (.table []) = w := by simp [tomlGetD, hg]
        rw [hd]
        by_cases hw : w.truthy
        · rw [if_pos hw]
          simp [tomlGet, List.find?, Option.filter, hw]
        · rw [if_neg hw]
          split_ifs <;> simp_all [tomlGet, List.find?, Option.filter]
    · rw [hfmt, tomlGet_append, tomlGet_append]
      rcases hg : tomlGet t "bash_rules" with _ | w
      · have hfalse : (tomlGetD t "bash_rules" (.table [])).truthy = false := by
          simp [tomlGetD, hg, TomlVal.truthy]
        rw [hfalse]
        split_ifs <;> simp_all [tomlGet, List.find?, Option.filter]
      · have hd : tomlGetD t "bash_rules" (.table []) = w := by simp [tomlGetD, hg]
        rw [hd]
        by_cases hw : w.truthy
        · rw [if_pos hw]
          split_ifs <;> simp_all [tomlGet, List.find?, Option.filter]
        · rw [if_neg hw]
          split_ifs <;> simp_all [tomlGet, List.find?, Option.filter]
    · rw [hfmt, tomlGet_append, tomlGet_append]
      rcases hg : tomlGet t "edit_rules" with _ | w
      · have hfalse : (tomlGetD t "edit_rules" (.table [])).truthy = false := by
          simp [tomlGetD, hg, TomlVal.truthy]
        rw [hfalse]
        split_ifs <;> simp_all [tomlGet, List.find?, Option.filter]
      · have hd : tomlGetD t "edit_rules" (.table []) = w := by simp [tomlGetD, hg]
        rw [hd]
        by_cases hw : w.truthy
        · rw [if_pos hw]
          split_ifs <;> simp_all [tomlGet, List.find?, Option.filter]
        · rw [if_neg hw]
          split_ifs <;> simp_all [tomlGet, List.find?, Option.filter]
    · intro k h1 h2 h3
      rw [hfmt, tomlGet_append, tomlGet_append]
      have e1 : ("tools" == k) = false := by simpa using Ne.symm h1
      have e2 : ("bash" == k) = false := by simpa using Ne.symm h2
      have e3 : ("edit" == k) = false := by simpa using Ne.symm h3
      split_ifs <;> simp [tomlGet, List.find?, e1, e2, e3]

/-- Claim C9 (Config Extractor correctness): the extracted pass-through
config (extraction plus the permissions reshaping performed by
write_agent_config) agrees with the input on every key outside the fixed
control-key set, drops every control key, replaces a present permissions
sub-table by its formatted version, leaves permissions absent when absent,
and the formatted permissions table holds exactly tools, bash (from
bash_rules) and edit (from edit_rules), each present exactly when its
source value is truthy (a non-empty sub-table); the whole extraction is a
total Lean function, hence deterministic and never failing. -/
theorem claim_C9_config_extractor (d : TomlDict) :
    (∀ k, k ∈ CONFIG_KEYS → tomlGet (BlockchainAgent.extract_and_reshape d) k = none)
    ∧ (∀ k, k ∉ CONFIG_KEYS → k ≠ "permissions" →
        tomlGet (BlockchainAgent.extract_and_reshape d) k = tomlGet d k)
    ∧ (∀ t, tomlGet d "permissions" = some (.table t) →
        tomlGet (BlockchainAgent.extract_and_reshape d) "permissions" =
          some (.table (BlockchainAgent.format_permissions t)))
    ∧ (tomlGet d "permissions" = none →
        tomlGet (BlockchainAgent.extract_and_reshape d) "permissions" = none)
    ∧ (∀ t : TomlDict,
        tomlGet (BlockchainAgent.format_permissions t) "tools" =
          (tomlGet t "tools").filter TomlVal.truthy
        ∧ tomlGet (BlockchainAgent.format_permissions t) "bash" =
          (tomlGet t "bash_rules").filter TomlVal.truthy
        ∧ tomlGet (BlockchainAgent.format_permissions t) "edit" =
          (tomlGet t "edit_rules").filter TomlVal.truthy
        ∧ (∀ k, k ≠ "tools" → k ≠ "bash" → k ≠ "edit" →
            tomlGet (BlockchainAgent.format_permissions t) k = none)) := by
  have hpk : CONFIG_KEYS.contains "permissions" = false := by decide
  have hpe : tomlGet (BlockchainAgent.extract_agent_config d) "permissions" =
      tomlGet d "permissions" := by
    rw [tomlGet_extract, if_neg (by decide)]
  refine ⟨?_, ?_, ?_, ?_, fun t => tomlGet_format_permissions t⟩
  · intro k hk
    have hck : CONFIG_KEYS.contains k = true := by
      simpa [CONFIG_KEYS] using hk
    have hkp : "permissions" ≠ k := by
      intro he
      rw [← he] at hk
      exact (by decide : "permissions" ∉ CONFIG_KEYS) hk
    rcases hp : tomlGet (BlockchainAgent.extract_agent_config d) "permissions" with _ | v
    · simp only [BlockchainAgent.extract_and_reshape, hp]
      rw [tomlGet_extract, if_pos hck]
    · rcases v with w | w | w | w | w <;> simp only [BlockchainAgent.extract_and_reshape, hp] <;>
        [skip; skip; skip; skip; rw [tomlGet_tomlSet_ne _ _ _ _ hkp]] <;>
        rw [tomlGet_extract, if_pos hck]
  · intro k hk hkp
    have hck : CONFIG_KEYS.contains k = false := by
      simpa [CONFIG_KEYS] using hk
    rcases hp : tomlGet (BlockchainAgent.extract_agent_config d) "permissions" with _ | v
    · simp only [BlockchainAgent.extract_and_reshape, hp]
      rw [tomlGet_extract, if_neg (by simpa using hk)]
    · rcases v with w | w | w | w | w <;> simp only [BlockchainAgent.extract_and_reshape, hp] <;>
        [skip; skip; skip; skip; rw [tomlGet_tomlSet_ne _ _ _ _ (Ne.symm hkp)]] <;>
        rw [tomlGet_extract, if_neg (by simpa using hk)]
  · intro t hp
    have hp2 : tomlGet (BlockchainAgent.extract_agent_config d) "permissions" =
        some (.table t) := hpe.trans hp
    simp only [BlockchainAgent.extract_and_reshape, hp2]
    exact tomlGet_tomlSet_self _ _ _ _ hp2
  · intro hp
    have hp2 : tomlGet (BlockchainAgent.extract_agent_config d) "permissions" = none :=
      hpe.trans hp
    simp only [BlockchainAgent.extract_and_reshape, hp2]

/-- Witness for claim C9: a concrete section with pass-through fields and a
permissions sub-table. -/
theorem claim_C9_witness :
    tomlGet (BlockchainAgent.extract_and_reshape
      [("description", TomlVal.s "agent"), ("enabled", TomlVal.b true),
       ("permissions", TomlVal.table
         [("tools", TomlVal.table [("bash", TomlVal.b true)]),
          ("bash_rules", TomlVal.table []),
          ("edit_rules", TomlVal.table [("e", TomlVal.s "allow")])])]) "enabled" = none
    ∧ tomlGet (BlockchainAgent.extract_and_reshape
      [("description", TomlVal.s "agent"), ("enabled", TomlVal.b true),
       ("permissions", TomlVal.table
         [("tools", TomlVal.table [("bash", TomlVal.b true)]),
          ("bash_rules", TomlVal.table []),
          ("edit_rules", TomlVal.table [("e", TomlVal.s "allow")])])]) "description" =
      some (TomlVal.s "agent")
    ∧ tomlGet (BlockchainAgent.extract_and_reshape
      [("description", TomlVal.s "agent"), ("enabled", TomlVal.b true),
       ("permissions", TomlVal.table
         [("tools", TomlVal.table [("bash", TomlVal.b true)]),
          ("bash_rules", TomlVal.table []),
          ("edit_rules", TomlVal.table [("e", TomlVal.s "allow")])])]) "permissions" =
      some (TomlVal.table (BlockchainAgent.format_permissions
         [("tools", TomlVal.table [("bash", TomlVal.b true)]),
          ("bash_rules", TomlVal.table []),
          ("edit_rules", TomlVal.table [("e", TomlVal.s "allow")])]))
    ∧ tomlGet (BlockchainAgent.format_permissions
         [("tools", TomlVal.table [("bash", TomlVal.b true)]),
          ("bash_rules", TomlVal.table []),
          ("edit_rules", TomlVal.table [("e", TomlVal.s "allow")])]) "bash" = none := by
  refine ⟨?_, ?_, ?_, ?_⟩
  · exact (claim_C9_config_extractor _).1 "enabled" (by decide)
  · exact ((claim_C9_config_extractor _).2.1 "description" (by decide) (by decide)).trans rfl
  · exact (claim_C9_config_extractor _).2.2.1 _ rfl
  · exact ((claim_C9_config_extractor []).2.2.2.2
      [("tools", TomlVal.table [("bash", TomlVal.b true)]),
       ("bash_rules", TomlVal.table []),
       ("edit_rules", TomlVal.table [("e", TomlVal.s "allow")])]).2.1.trans rfl
